import Mathlib

/-!
Verification development for the `nex_suites` filesystem / document-conversion
server (`backend/nex_suites/tools/filesystem.py` and
`backend/nex_suites/tools/document_converter.py`).

The embedding models
* filesystem paths as lists of name components of an absolute path
  (`/home/user` is `["home", "user"]`);
* the on-disk state as a finite description `FS` of the existing directories,
  the existing files (each file carrying the raw content the external
  extraction backends — pdfplumber / pytesseract — would report for it, since
  those libraries are outside the repository), and the set of directories
  whose enumeration raises an OS error;
* `pathlib.Path.resolve()` as lexical normalization of `.` / `..` components
  (the model filesystem is symlink-free);
* the Python regular expressions of `parse_receipt_data` as token sequences
  interpreted by a faithful backtracking matcher (`re` is external code, the
  token interpretation reproduces its leftmost / greedy / lazy semantics for
  exactly the constructs those patterns use, over ASCII text);
* Python `ValueError`s as values of an error type `Err`, distinguished by the
  raise site exactly as the messages distinguish them in the source.
-/

namespace NexSuites

/-- A component list of an absolute filesystem path: `/home/user` is
`["home", "user"]`, the filesystem root is `[]`. -/
abbrev PathC := List String

/-- `pathlib.Path.resolve()` on an absolute path, modelled lexically over a
symlink-free filesystem: `.` components are dropped and `..` removes the
previous component (the parent of the root is the root itself, as in POSIX). -/
def resolveComps (p : PathC) : PathC :=
  p.foldl (fun acc c =>
    if c = "." then acc
    else if c = ".." then acc.dropLast
    else acc ++ [c]) []

/-- One page as reported by `pdfplumber` for a stored PDF file: its extracted
plain text and its extracted tables (geometry attributes are never read by any
renderer and are omitted). -/
structure PdfPageRaw where
  text : String
  tables : List (List (List String))
  deriving Repr, DecidableEq

/-- What the external extraction backend would deliver for a stored file:
either the per-page pdfplumber output, or the pytesseract OCR text of an image
together with its pixel dimensions. -/
inductive DocSource where
  | pdf (pages : List PdfPageRaw)
  | image (ocrText : String) (width : Nat) (height : Nat)
  deriving Repr, DecidableEq

/-- An existing regular file: its absolute path, its `stat().st_size`, and the
content oracle for the extraction backend. -/
structure FileEntry where
  path : PathC
  size : Nat
  doc : DocSource
  deriving Repr, DecidableEq

/-- A snapshot of the accessible filesystem: the existing directories, the
existing regular files, and the directories whose enumeration raises an
OS-level error (`PermissionError` and friends). -/
structure FS where
  dirs : List PathC
  files : List FileEntry
  failingDirs : List PathC
  deriving Repr, DecidableEq

/-- `Path.is_file()` on the snapshot. -/
def FS.isFile (fs : FS) (p : PathC) : Bool :=
  fs.files.any (fun f => f.path == p)

/-- `Path.is_dir()` on the snapshot. -/
def FS.isDir (fs : FS) (p : PathC) : Bool :=
  fs.dirs.any (fun d => d == p)

/-- `Path.exists()` on the snapshot. -/
def FS.existsPath (fs : FS) (p : PathC) : Bool :=
  fs.isFile p || fs.isDir p

/-- Look up the file entry stored at `p`. -/
def FS.findFile (fs : FS) (p : PathC) : Option FileEntry :=
  fs.files.find? (fun f => f.path == p)

/-- `is_path_allowed(requested_path, ctx)` from `tools/filesystem.py`
(lines 13–38).  The client roots delivered through
`ctx.session.list_roots()` / `file_url_to_path` are modelled as the component
lists `roots`.  The requested path is resolved, a non-existing path is
rejected, a file is replaced by its parent directory, and
`requested_path.relative_to(root_path)` succeeds exactly when the root's
components are a prefix of the requested path's components. -/
def is_path_allowed (fs : FS) (roots : List PathC) (requested : PathC) : Bool :=
  let p := resolveComps requested
  if fs.existsPath p = false then false
  else
    let q := if fs.isFile p then p.dropLast else p
    roots.any (fun r => r.isPrefixOf q)

/-- The canonical form the containment claim speaks about: the resolved path,
with a file replaced by its parent directory.  (Spec §8, containment
invariant.) -/
def effective_target (fs : FS) (requested : PathC) : PathC :=
  let p := resolveComps requested
  if fs.isFile p then p.dropLast else p

/-- The spec-side authorization predicate: some granted root equals the
canonical target or is a strict ancestor of it. -/
def contained_in_some_root (roots : List PathC) (q : PathC) : Prop :=
  ∃ r ∈ roots, q = r ∨ (r <+: q ∧ r ≠ q)

/-! ### Python string primitives (ASCII fragment) -/

/-- Python's `\s` / `str.strip()` whitespace class, ASCII fragment
(space, tab, newline, carriage return, vertical tab, form feed). -/
def pyIsSpace (c : Char) : Bool :=
  c == ' ' || c == '\t' || c == '\n' || c == '\r' || c == '\x0b' || c == '\x0c'

/-- `str.strip()` on a character list. -/
def pyStrip (s : List Char) : List Char :=
  ((s.dropWhile pyIsSpace).reverse.dropWhile pyIsSpace).reverse

/-- `str.split(sep)` for a one-character separator; keeps empty pieces,
like Python's `split` with an explicit separator. -/
def splitChar (sep : Char) : List Char → List (List Char)
  | [] => [[]]
  | c :: cs =>
    let r := splitChar sep cs
    if c == sep then [] :: r
    else
      match r with
      | [] => [[c]]
      | h :: t => (c :: h) :: t

/-- `str.lower()`, ASCII fragment (`Char.toLower` only maps `A`–`Z`). -/
def lowerList (s : String) : List Char :=
  s.toList.map Char.toLower

/-- Case-sensitive substring test (`needle in haystack` on Python strings). -/
def containsSub (p : List Char) : List Char → Bool
  | [] => p.isEmpty
  | c :: t => p.isPrefixOf (c :: t) || containsSub p t

/-- Code-point lexicographic order on character lists, as Python compares
strings. -/
def lexLe : List Char → List Char → Bool
  | [], _ => true
  | _ :: _, [] => false
  | a :: as, b :: bs => if a == b then lexLe as bs else decide (a.toNat < b.toNat)

/-- `f"{label:<20}"`: pad on the right with spaces up to the requested
width. -/
def padRight (s : String) (w : Nat) : String :=
  s ++ String.mk (List.replicate (w - s.length) ' ')

/-! ### The regular-expression fragment of `parse_receipt_data`

Every pattern in the source has the shape *prefix tokens, then one capturing
group at the end*.  The prefix tokens are case-insensitive literals, `\.?`
and `\s*`; the capture is `(\S+)` or `(.+?)(?:\n|$)`.  `matchPatAt`
reproduces `re` semantics at one start position — prefix alternatives are
explored in greedy-first (leftmost quantifier outermost) order, exactly the
backtracking order of the Python engine — and `re_search` takes the leftmost
start position that matches, which is what `re.search` returns. -/

/-- A non-capturing token of a source pattern. -/
inductive PreTok where
  /-- a case-insensitive literal (`re.IGNORECASE` is set on every search) -/
  | lit (s : List Char)
  /-- `\.?` -/
  | optDot
  /-- `\s*` -/
  | ws
  deriving Repr, DecidableEq

/-- The capturing group ending a source pattern. -/
inductive Cap where
  /-- `(\S+)` -/
  | nonspace
  /-- `(.+?)(?:\n|$)` — with `.` not matching a newline, the lazy group is
  forced to capture exactly the non-empty run up to the next newline or the
  end of the text -/
  | restOfLine
  deriving Repr, DecidableEq

/-- One alternative pattern of a field: prefix tokens, then the capture. -/
structure Pat where
  pre : List PreTok
  cap : Cap
  deriving Repr, DecidableEq

/-- Strip a case-insensitive literal from the front of the text. -/
def stripLit : List Char → List Char → Option (List Char)
  | [], cs => some cs
  | _ :: _, [] => none
  | l :: ls, c :: cs =>
    if l.toLower == c.toLower then stripLit ls cs else none

/-- All remainders of the text after matching the prefix tokens, in the
backtracking priority order of the Python engine (greedy quantifiers longest
first, leftmost quantifier varied last). -/
def prefixRems : List PreTok → List Char → List (List Char)
  | [], cs => [cs]
  | PreTok.lit s :: ts, cs =>
    match stripLit s cs with
    | some rest => prefixRems ts rest
    | none => []
  | PreTok.optDot :: ts, cs =>
    (match cs with
     | '.' :: rest => prefixRems ts rest
     | _ => []) ++ prefixRems ts cs
  | PreTok.ws :: ts, cs =>
    let n := (cs.takeWhile pyIsSpace).length
    ((List.range (n + 1)).map (fun k => n - k)).flatMap
      (fun k => prefixRems ts (cs.drop k))

/-- Run the capturing group on a remainder; returns the captured characters. -/
def capRun : Cap → List Char → Option (List Char)
  | Cap.nonspace, cs =>
    let r := cs.takeWhile (fun c => !(pyIsSpace c))
    if r.isEmpty then none else some r
  | Cap.restOfLine, cs =>
    let r := cs.takeWhile (fun c => c != '\n')
    if r.isEmpty then none else some r

/-- Try the whole pattern at one start position. -/
def matchPatAt (p : Pat) (cs : List Char) : Option (List Char) :=
  (prefixRems p.pre cs).findSome? (capRun p.cap)

/-- `re.search`: the match at the leftmost start position, if any. -/
def re_search (p : Pat) : List Char → Option (List Char)
  | [] => matchPatAt p []
  | c :: cs =>
    match matchPatAt p (c :: cs) with
    | some r => some r
    | none => re_search p cs

/-! ### The pattern table of `parse_receipt_data` (document_converter.py 154–205) -/

/-- Shorthand for a case-insensitive literal token. -/
def litT (s : String) : PreTok := PreTok.lit s.toList

/-- `receipt_no` patterns. -/
def receipt_no_pats : List Pat :=
  [ ⟨[litT "No", PreTok.optDot, PreTok.ws, litT "Resit", PreTok.ws, litT ":", PreTok.ws], Cap.nonspace⟩,
    ⟨[litT "Receipt", PreTok.ws, litT "No", PreTok.optDot, PreTok.ws, litT ":", PreTok.ws], Cap.nonspace⟩,
    ⟨[litT "Invoice", PreTok.ws, litT "No", PreTok.optDot, PreTok.ws, litT ":", PreTok.ws], Cap.nonspace⟩ ]

/-- `datetime` patterns. -/
def datetime_pats : List Pat :=
  [ ⟨[litT "Tarikh", PreTok.ws, litT "Masa", PreTok.ws, litT ":", PreTok.ws], Cap.restOfLine⟩,
    ⟨[litT "Date", PreTok.ws, litT "Time", PreTok.ws, litT ":", PreTok.ws], Cap.restOfLine⟩,
    ⟨[litT "Date", PreTok.ws, litT ":", PreTok.ws], Cap.restOfLine⟩ ]

/-- `payment_date` patterns. -/
def payment_date_pats : List Pat :=
  [ ⟨[litT "Tarikh", PreTok.ws, litT "Bayaran", PreTok.ws, litT ":", PreTok.ws], Cap.restOfLine⟩,
    ⟨[litT "Payment", PreTok.ws, litT "Date", PreTok.ws, litT ":", PreTok.ws], Cap.restOfLine⟩ ]

/-- `payment_type` patterns. -/
def payment_type_pats : List Pat :=
  [ ⟨[litT "Jenis", PreTok.ws, litT "Bayaran", PreTok.ws, litT ":", PreTok.ws], Cap.restOfLine⟩,
    ⟨[litT "Payment", PreTok.ws, litT "Type", PreTok.ws, litT ":", PreTok.ws], Cap.restOfLine⟩ ]

/-- `company_code` patterns. -/
def company_code_pats : List Pat :=
  [ ⟨[litT "Kod", PreTok.ws, litT "Majikan", PreTok.ws, litT ":", PreTok.ws], Cap.nonspace⟩,
    ⟨[litT "Company", PreTok.ws, litT "Code", PreTok.ws, litT ":", PreTok.ws], Cap.nonspace⟩,
    ⟨[litT "Employer", PreTok.ws, litT "Code", PreTok.ws, litT ":", PreTok.ws], Cap.nonspace⟩ ]

/-- `company_name` patterns. -/
def company_name_pats : List Pat :=
  [ ⟨[litT "Nama", PreTok.ws, litT "Majikan", PreTok.ws, litT ":", PreTok.ws], Cap.restOfLine⟩,
    ⟨[litT "Company", PreTok.ws, litT "Name", PreTok.ws, litT ":", PreTok.ws], Cap.restOfLine⟩,
    ⟨[litT "Employer", PreTok.ws, litT "Name", PreTok.ws, litT ":", PreTok.ws], Cap.restOfLine⟩ ]

/-- `payment_method` patterns. -/
def payment_method_pats : List Pat :=
  [ ⟨[litT "Kaedah", PreTok.ws, litT "Bayaran", PreTok.ws, litT ":", PreTok.ws], Cap.restOfLine⟩,
    ⟨[litT "Payment", PreTok.ws, litT "Method", PreTok.ws, litT ":", PreTok.ws], Cap.restOfLine⟩ ]

/-- `transaction_id` patterns. -/
def transaction_id_pats : List Pat :=
  [ ⟨[litT "FPX", PreTok.ws, litT "Transaksi", PreTok.ws, litT "ID", PreTok.ws, litT ":", PreTok.ws], Cap.nonspace⟩,
    ⟨[litT "Transaction", PreTok.ws, litT "ID", PreTok.ws, litT ":", PreTok.ws], Cap.nonspace⟩,
    ⟨[litT "Reference", PreTok.ws, litT "No", PreTok.optDot, PreTok.ws, litT ":", PreTok.ws], Cap.nonspace⟩ ]

/-- `bank` patterns. -/
def bank_pats : List Pat :=
  [ ⟨[litT "Bank", PreTok.ws, litT ":", PreTok.ws], Cap.restOfLine⟩ ]

/-- `total_amount` patterns. -/
def total_amount_pats : List Pat :=
  [ ⟨[litT "Jumlah", PreTok.ws, litT "Bayaran", PreTok.ws, litT ":", PreTok.ws], Cap.restOfLine⟩,
    ⟨[litT "Total", PreTok.ws, litT "Amount", PreTok.ws, litT ":", PreTok.ws], Cap.restOfLine⟩,
    ⟨[litT "Total", PreTok.ws, litT ":", PreTok.ws], Cap.restOfLine⟩ ]

/-- `notes` patterns. -/
def notes_pats : List Pat :=
  [ ⟨[litT "Catatan", PreTok.ws, litT ":", PreTok.ws], Cap.restOfLine⟩,
    ⟨[litT "Notes", PreTok.ws, litT ":", PreTok.ws], Cap.restOfLine⟩,
    ⟨[litT "Remarks", PreTok.ws, litT ":", PreTok.ws], Cap.restOfLine⟩ ]

/-! ### `ParsedRecord` -/

/-- One `"<int>. <description>"` payment-item line. -/
structure PaymentItem where
  number : String
  description : String
  deriving Repr, DecidableEq

/-- The dictionary built by `parse_receipt_data`.  Each `Option` field models
key presence in the Python dict (the parser only inserts a key when a pattern
matched); `payment_items` models the `payment_items` key, which is inserted
exactly when the collected list is non-empty. -/
structure ParsedRecord where
  receipt_no : Option String := none
  datetime : Option String := none
  payment_date : Option String := none
  payment_type : Option String := none
  company_code : Option String := none
  company_name : Option String := none
  payment_method : Option String := none
  transaction_id : Option String := none
  bank : Option String := none
  total_amount : Option String := none
  notes : Option String := none
  payment_items : List PaymentItem := []
  organization : Option String := none
  document_type : Option String := none
  deriving Repr, DecidableEq

/-- Python truthiness of a `dict` with these keys: empty iff no key is
present. -/
def ParsedRecord.isEmpty (r : ParsedRecord) : Bool :=
  r.receipt_no.isNone && r.datetime.isNone && r.payment_date.isNone &&
  r.payment_type.isNone && r.company_code.isNone && r.company_name.isNone &&
  r.payment_method.isNone && r.transaction_id.isNone && r.bank.isNone &&
  r.total_amount.isNone && r.notes.isNone && r.payment_items.isEmpty &&
  r.organization.isNone && r.document_type.isNone

/-- The semantic field names, i.e. the possible keys of the parsed dict other
than `payment_items`. -/
inductive FieldKey where
  | receipt_no | datetime | payment_date | payment_type | company_code
  | company_name | payment_method | transaction_id | bank | total_amount
  | notes | organization | document_type
  deriving Repr, DecidableEq

/-- Dictionary lookup by field key. -/
def getField (r : ParsedRecord) : FieldKey → Option String
  | FieldKey.receipt_no => r.receipt_no
  | FieldKey.datetime => r.datetime
  | FieldKey.payment_date => r.payment_date
  | FieldKey.payment_type => r.payment_type
  | FieldKey.company_code => r.company_code
  | FieldKey.company_name => r.company_name
  | FieldKey.payment_method => r.payment_method
  | FieldKey.transaction_id => r.transaction_id
  | FieldKey.bank => r.bank
  | FieldKey.total_amount => r.total_amount
  | FieldKey.notes => r.notes
  | FieldKey.organization => r.organization
  | FieldKey.document_type => r.document_type

/-- The Python dict key string of a field. -/
def keyName : FieldKey → String
  | FieldKey.receipt_no => "receipt_no"
  | FieldKey.datetime => "datetime"
  | FieldKey.payment_date => "payment_date"
  | FieldKey.payment_type => "payment_type"
  | FieldKey.company_code => "company_code"
  | FieldKey.company_name => "company_name"
  | FieldKey.payment_method => "payment_method"
  | FieldKey.transaction_id => "transaction_id"
  | FieldKey.bank => "bank"
  | FieldKey.total_amount => "total_amount"
  | FieldKey.notes => "notes"
  | FieldKey.organization => "organization"
  | FieldKey.document_type => "document_type"

/-- The eleven pattern-table fields, in the insertion order of the `patterns`
dict literal of the source. -/
def MAIN_FIELD_KEYS : List FieldKey :=
  [FieldKey.receipt_no, FieldKey.datetime, FieldKey.payment_date,
   FieldKey.payment_type, FieldKey.company_code, FieldKey.company_name,
   FieldKey.payment_method, FieldKey.transaction_id, FieldKey.bank,
   FieldKey.total_amount, FieldKey.notes]

/-- The pattern list the source associates with a pattern-table field. -/
def patternsFor : FieldKey → List Pat
  | FieldKey.receipt_no => receipt_no_pats
  | FieldKey.datetime => datetime_pats
  | FieldKey.payment_date => payment_date_pats
  | FieldKey.payment_type => payment_type_pats
  | FieldKey.company_code => company_code_pats
  | FieldKey.company_name => company_name_pats
  | FieldKey.payment_method => payment_method_pats
  | FieldKey.transaction_id => transaction_id_pats
  | FieldKey.bank => bank_pats
  | FieldKey.total_amount => total_amount_pats
  | FieldKey.notes => notes_pats
  | FieldKey.organization => []
  | FieldKey.document_type => []

/-! ### `parse_receipt_data` (document_converter.py 148–237) -/

/-- The inner loop `for pattern in pattern_list: ... break`: the first
pattern whose search succeeds supplies the (stripped) capture, the rest are
skipped. -/
def tryPatterns (cs : List Char) : List Pat → Option String
  | [] => none
  | p :: rest =>
    match re_search p cs with
    | some cap => some (pyStrip cap).asString
    | none => tryPatterns cs rest

/-- `re.match(r"(\d+)\.\s*(.+)", line)` on one line: a non-empty digit run,
a literal dot, optional whitespace, then a non-empty remainder.  Group 2
captures the rest of the line after the greedy-with-backtracking `\s*`, and
is then stripped — which is the strip of everything after the dot. -/
def parseItemLine (line : List Char) : Option PaymentItem :=
  let ds := line.takeWhile Char.isDigit
  if ds.isEmpty then none
  else
    match line.drop ds.length with
    | '.' :: rest =>
      if rest.isEmpty then none
      else some ⟨ds.asString, (pyStrip rest).asString⟩
    | _ => none

/-- `DocumentConverter.parse_receipt_data`.  `full_text` is
`'\n'.join(text.split('\n'))`, i.e. the input text itself; each field takes
the first matching pattern's capture; numbered lines are collected in
document order; the `PERKESO` / `RESIT RASMI` markers set the corresponding
keys. -/
def parse_receipt_data (text : String) : ParsedRecord :=
  let cs := text.toList
  let lines := splitChar '\n' cs
  { receipt_no := tryPatterns cs receipt_no_pats
    datetime := tryPatterns cs datetime_pats
    payment_date := tryPatterns cs payment_date_pats
    payment_type := tryPatterns cs payment_type_pats
    company_code := tryPatterns cs company_code_pats
    company_name := tryPatterns cs company_name_pats
    payment_method := tryPatterns cs payment_method_pats
    transaction_id := tryPatterns cs transaction_id_pats
    bank := tryPatterns cs bank_pats
    total_amount := tryPatterns cs total_amount_pats
    notes := tryPatterns cs notes_pats
    payment_items := lines.filterMap parseItemLine
    organization := if containsSub "PERKESO".toList cs then some "PERKESO" else none
    document_type := if containsSub "RESIT RASMI".toList cs then some "RESIT RASMI" else none }

/-! ### `clean_text` (document_converter.py 135–145) -/

/-- `re.sub(r'\s+', ' ', text)`: collapse every whitespace run to one
space (a whitespace character is dropped while its successor is also
whitespace, and becomes the single space closing its run otherwise). -/
def collapseWs : List Char → List Char
  | [] => []
  | [c] => if pyIsSpace c then [' '] else [c]
  | c :: d :: cs =>
    if pyIsSpace c && pyIsSpace d then collapseWs (d :: cs)
    else (if pyIsSpace c then ' ' else c) :: collapseWs (d :: cs)

/-- `str.replace(a + b, r)` for a two-character needle, scanning left to
right without overlap, as Python's `str.replace` does. -/
def replacePair (a b r : Char) : List Char → List Char
  | [] => []
  | [x] => [x]
  | x :: y :: rest =>
    if x == a && y == b then r :: replacePair a b r rest
    else x :: replacePair a b r (y :: rest)

/-- Scanner for `re.sub(r'([:\.])\s+', r'\1\n', text)`: while `skipping`,
the whitespace run consumed by a replacement is dropped; otherwise a colon
or dot followed by whitespace emits itself plus a newline and enters
skipping mode (the replaced run's characters are all whitespace, so the
match-by-match regex scan and this one-pass scan agree). -/
def insertBreaksGo : Bool → List Char → List Char
  | _, [] => []
  | skipping, c :: cs =>
    if skipping && pyIsSpace c then insertBreaksGo true cs
    else
      if (c == ':' || c == '.') &&
          (match cs with | d :: _ => pyIsSpace d | [] => false) then
        c :: '\n' :: insertBreaksGo true cs
      else c :: insertBreaksGo false cs

/-- `re.sub(r'([:\.])\s+', r'\1\n', text)`: after a colon or dot followed by
whitespace, the whitespace run is replaced by a single newline; scanning
resumes after each replacement. -/
def insertBreaks (cs : List Char) : List Char :=
  insertBreaksGo false cs

/-- `DocumentConverter.clean_text`: collapse whitespace, fix `' :'` and
`' ,'`, restore line breaks after `:` and `.`, strip. -/
def clean_text (s : String) : String :=
  (pyStrip (insertBreaks
    (replacePair ' ' ',' ','
      (replacePair ' ' ':' ':' (collapseWs s.toList))))).asString

/-! ### `RawContent` and the extraction stage (document_converter.py 58–133) -/

/-- Per-page record built by `extract_from_pdf` (geometry attributes are
never read downstream and are omitted). -/
structure PageContent where
  page : Nat
  text : String
  tables : List (List (List String))
  deriving Repr, DecidableEq

/-- Metadata of the single image recorded by `extract_from_image`; the
`original_width` / `original_height` dict entries always repeat `width` /
`height` at construction. -/
structure ImgMeta where
  name : String
  width : Nat
  height : Nat
  deriving Repr, DecidableEq

/-- The raw-data dict returned by the extraction stage.  `srcType` models the
`"type"` dict key; `raw_text` and `images` model `data.get("raw_text", "")`
and `data.get("images", [])`, which are absent (default) for a PDF. -/
structure RawContent where
  srcType : String
  pages : List PageContent := []
  raw_text : String := ""
  images : List ImgMeta := []
  parsed : ParsedRecord
  filename : String
  deriving Repr, DecidableEq

/-- `DocumentConverter.extract_from_pdf`: pages are numbered from 1 in
order, each page text is cleaned, the per-page texts are joined with
newlines and parsed. -/
def extract_from_pdf (src : List PdfPageRaw) (filename : String) : RawContent :=
  let pages := src.mapIdx (fun i p =>
    { page := i + 1, text := clean_text p.text, tables := p.tables })
  let full_text := String.intercalate "\n" (pages.map (fun p => p.text))
  { srcType := "pdf", pages := pages, parsed := parse_receipt_data full_text,
    filename := filename }

/-- `DocumentConverter.extract_from_image`: the OCR text (supplied by the
backend oracle) is cleaned and parsed; the preprocessing pipeline and
`pytesseract` themselves are external to the repository. -/
def extract_from_image (ocr : String) (filename : String) (w h : Nat) :
    RawContent :=
  let text := clean_text ocr
  { srcType := "image", raw_text := text, parsed := parse_receipt_data text,
    filename := filename, images := [⟨filename, w, h⟩] }

/-! ### The renderers (document_converter.py 239–443) -/

/-- Python truthiness of `parsed.get(key)` for a string value: present and
non-empty. -/
def optTruthy : Option String → Option String
  | some v => if v = "" then none else some v
  | none => none

/-- The `field_mappings` list of `format_as_text` (lines 261–272). -/
def TEXT_FIELD_MAPPINGS : List (String × FieldKey) :=
  [("Tarikh Masa", FieldKey.datetime),
   ("Tarikh Bayaran", FieldKey.payment_date),
   ("Jenis Bayaran", FieldKey.payment_type),
   ("Kod Majikan", FieldKey.company_code),
   ("Nama Majikan", FieldKey.company_name),
   ("Kaedah Bayaran", FieldKey.payment_method),
   ("FPX Transaksi ID", FieldKey.transaction_id),
   ("Bank", FieldKey.bank),
   ("Jumlah Bayaran", FieldKey.total_amount),
   ("Catatan", FieldKey.notes)]

/-- The `field_mappings` list of `format_as_markdown` (lines 328–338); note
that it has no `payment_type` entry. -/
def MD_FIELD_MAPPINGS : List (String × FieldKey) :=
  [("Tarikh Masa", FieldKey.datetime),
   ("Tarikh Bayaran", FieldKey.payment_date),
   ("Kod Majikan", FieldKey.company_code),
   ("Nama Majikan", FieldKey.company_name),
   ("Kaedah Bayaran", FieldKey.payment_method),
   ("FPX Transaksi ID", FieldKey.transaction_id),
   ("Bank", FieldKey.bank),
   ("Jumlah Bayaran", FieldKey.total_amount),
   ("Catatan", FieldKey.notes)]

/-- The `for label, field_key in field_mappings: if field_key in parsed:
output.append(f(label, value))` loop shared by the text and markdown
renderers. -/
def fieldLoop (f : String → String → String)
    (maps : List (String × FieldKey)) (r : ParsedRecord) : List String :=
  maps.foldl (fun acc m =>
    match getField r m.2 with
    | some v => acc ++ [f m.1 v]
    | none => acc) []

/-- One payment-item output line `f"{number}. {description}"`. -/
def itemLine (it : PaymentItem) : String :=
  it.number ++ ". " ++ it.description

/-- The output-line list of `DocumentConverter.format_as_text`
(lines 239–300); the returned string joins these with newlines. -/
def format_as_text_lines (d : RawContent) : List String :=
  let core :=
    if d.parsed.isEmpty = false then
      (match optTruthy d.parsed.document_type with
       | some t =>
         let header :=
           match optTruthy d.parsed.receipt_no with
           | some rn => t ++ "     No. Resit : " ++ rn
           | none => t
         [header, ""]
       | none => []) ++
      (match optTruthy d.parsed.organization with
       | some o => [o, ""]
       | none => []) ++
      fieldLoop (fun label v => padRight label 20 ++ " :     " ++ v)
        TEXT_FIELD_MAPPINGS d.parsed ++
      (if d.parsed.payment_items.isEmpty then []
       else "" :: d.parsed.payment_items.map itemLine)
    else
      if d.srcType == "pdf" then
        d.pages.flatMap (fun p =>
          ["Page " ++ toString p.page ++ ":", p.text, ""])
      else [d.raw_text]
  core ++
    (if containsSub "Resit ini adalah cetakan komputer".toList d.raw_text.toList then
      ["", "\"Resit ini adalah cetakan komputer dan tandatangan tidak diperlukan.\""]
    else [])

/-- `DocumentConverter.format_as_text`. -/
def format_as_text (d : RawContent) : String :=
  String.intercalate "\n" (format_as_text_lines d)

/-- The output-line list of `DocumentConverter.format_as_markdown`
(lines 302–375); the returned string joins these with newlines. -/
def format_as_markdown_lines (d : RawContent) : List String :=
  let core :=
    if d.parsed.isEmpty = false then
      (match optTruthy d.parsed.document_type with
       | some t => ["# " ++ t, ""]
       | none => []) ++
      (match optTruthy d.parsed.receipt_no with
       | some rn => ["**No. Resit:** " ++ rn, ""]
       | none => []) ++
      (match optTruthy d.parsed.organization with
       | some o => ["## " ++ o, ""]
       | none => []) ++
      ["| Field | Value |", "|-------|-------|"] ++
      fieldLoop (fun label v => "| **" ++ label ++ "** | " ++ v ++ " |")
        MD_FIELD_MAPPINGS d.parsed ++
      (if d.parsed.payment_items.isEmpty then []
       else ["", "### Jenis Bayaran", ""] ++ d.parsed.payment_items.map itemLine)
    else
      ["# Document Content", ""] ++
      (if d.srcType == "pdf" then
        d.pages.flatMap (fun p =>
          ["## Page " ++ toString p.page, "", "```", p.text, "```", ""])
      else ["```", d.raw_text, "```"])
  core ++ ["", "---", "*Generated from: " ++ d.filename ++ "*"]

/-- `DocumentConverter.format_as_markdown`. -/
def format_as_markdown (d : RawContent) : String :=
  String.intercalate "\n" (format_as_markdown_lines d)

/-! ### `format_as_json` (document_converter.py 377–443) -/

/-- The structured value `format_as_json` assembles before `json.dumps`. -/
inductive JValue where
  | null
  | str (s : String)
  | num (n : Nat)
  | arr (xs : List JValue)
  | obj (fields : List (String × JValue))

/- A minimal serializer standing in for `json.dumps` (whitespace layout and
string escaping of the external library are abstracted; no claim inspects
the serialized text). -/
mutual

/-- Serialize a `JValue` (stand-in for `json.dumps`). -/
def jvalString : JValue → String
  | JValue.null => "null"
  | JValue.str s => "\x22" ++ s ++ "\x22"
  | JValue.num n => toString n
  | JValue.arr xs => "[" ++ jvalListString xs ++ "]"
  | JValue.obj fs => "\x7b" ++ jvalObjString fs ++ "\x7d"

def jvalListString : List JValue → String
  | [] => ""
  | [x] => jvalString x
  | x :: xs => jvalString x ++ ", " ++ jvalListString xs

def jvalObjString : List (String × JValue) → String
  | [] => ""
  | [(k, v)] => "\x22" ++ k ++ "\x22: " ++ jvalString v
  | (k, v) :: fs => "\x22" ++ k ++ "\x22: " ++ jvalString v ++ ", " ++ jvalObjString fs
end

/-- JSON encoding of an extracted table. -/
def tableJson (t : List (List String)) : JValue :=
  JValue.arr (t.map (fun row => JValue.arr (row.map JValue.str)))

/-- The page dict built for one PDF page: `page`, `text`, `md` (left empty by
the source), `images`, and a `tables` key appended only when the page's table
list is truthy (non-empty). -/
def pdfPageJson (p : PageContent) : JValue :=
  JValue.obj
    ([("page", JValue.num p.page), ("text", JValue.str p.text),
      ("md", JValue.str ""), ("images", JValue.arr [])] ++
     (if p.tables.isEmpty then [] else [("tables", JValue.arr (p.tables.map tableJson))]))

/-- JSON encoding of the stored image-metadata dict. -/
def imgJson (m : ImgMeta) : JValue :=
  JValue.obj
    [("name", JValue.str m.name), ("width", JValue.num m.width),
     ("height", JValue.num m.height), ("original_width", JValue.num m.width),
     ("original_height", JValue.num m.height)]

/-- An `items` entry for a plain parsed field. -/
def fieldItemJson (key value : String) : JValue :=
  JValue.obj
    [("type", JValue.str "field"), ("key", JValue.str key),
     ("value", JValue.str value), ("lvl", JValue.num 1)]

/-- An `items` entry for one payment item. -/
def paymentItemJson (it : PaymentItem) : JValue :=
  JValue.obj
    [("type", JValue.str "payment_item"), ("number", JValue.str it.number),
     ("description", JValue.str it.description)]

/-- `for key, value in data["parsed"].items()` in dict insertion order: the
eleven pattern-table fields in pattern-table order, then the payment items
(each expanded to its own entry), then the `organization` and
`document_type` keys, which the parser inserts last. -/
def parsedItemsJson (r : ParsedRecord) : List JValue :=
  MAIN_FIELD_KEYS.filterMap
    (fun k => (getField r k).map (fun v => fieldItemJson (keyName k) v)) ++
  r.payment_items.map paymentItemJson ++
  (match r.organization with
   | some v => [fieldItemJson "organization" v]
   | none => []) ++
  (match r.document_type with
   | some v => [fieldItemJson "document_type" v]
   | none => [])

/-- The top-level dict assembled by `DocumentConverter.format_as_json`:
`pages` / `charts` / `items` built in place, `metadata` appended last. -/
def format_as_json_obj (d : RawContent) : JValue :=
  let pages : List JValue :=
    if d.srcType == "pdf" then d.pages.map pdfPageJson
    else if d.srcType == "image" then
      [JValue.obj
        [("page", JValue.num 1), ("text", JValue.str d.raw_text),
         ("md", JValue.str (format_as_markdown d)),
         ("images", JValue.arr (d.images.map imgJson))]]
    else []
  let items : List JValue :=
    if d.parsed.isEmpty then [] else parsedItemsJson d.parsed
  JValue.obj
    [("pages", JValue.arr pages), ("charts", JValue.arr []),
     ("items", JValue.arr items),
     ("metadata", JValue.obj
       [("filename", JValue.str d.filename), ("type", JValue.str d.srcType),
        ("processed_at", JValue.null)])]

/-- `DocumentConverter.format_as_json`: the serialized dict. -/
def format_as_json (d : RawContent) : String :=
  jvalString (format_as_json_obj d)

/-- Key list of a JSON object. -/
def topKeys : JValue → List String
  | JValue.obj fs => fs.map (fun f => f.1)
  | _ => []

/-- Field lookup in a JSON object. -/
def lookupJ (j : JValue) (k : String) : Option JValue :=
  match j with
  | JValue.obj fs => fs.lookup k
  | _ => none

/-! ### Path suffix handling (`pathlib.PurePath.suffix`) -/

/-- The final name component of a path (`Path.name`). -/
def nameOf (p : PathC) : String := p.getLastD ""

/-- `PurePath.suffix`: the extension of the name from its last dot, empty
when the last dot is the first or the last character. -/
def suffixOfName (name : String) : String :=
  let cs := name.toList
  match cs.reverse.findIdx? (fun c => c == '.') with
  | none => ""
  | some k =>
    let i := cs.length - 1 - k
    if 0 < i ∧ i < cs.length - 1 then (cs.drop i).asString else ""

/-- `path.suffix.lower()`. -/
def suffixLower (name : String) : String :=
  ((suffixOfName name).toList.map Char.toLower).asString

/-- `path.suffix.lower()[1:]`: the lowercased extension without its dot. -/
def extOfName (name : String) : String :=
  ((suffixLower name).toList.drop 1).asString

/-- `DocumentConverter.SUPPORTED_INPUT_FORMATS`. -/
def SUPPORTED_INPUT_FORMATS : List String := ["pdf", "jpg", "jpeg", "png"]

/-- `DocumentConverter.OUTPUT_FORMATS`. -/
def OUTPUT_FORMATS : List String := ["text", "markdown", "json"]

/-! ### Errors, effects, and `DocumentConverter.convert` -/

/-- The `ValueError`s raised inside `DocumentConverter` (each constructor is
one raise site, distinguished in the source by its message). -/
inductive ConvErr where
  /-- `"Input file not found: ..."` (validate_input) -/
  | notFound
  /-- `"Unsupported format '...'"` (validate_input) -/
  | unsupportedFormat
  /-- an error raised by the pdfplumber / PIL / pytesseract backend -/
  | extractionFailure
  /-- `"Unsupported output format: ..."` (convert's final else) -/
  | badOutputFormat
  deriving Repr, DecidableEq

/-- The `ValueError`s raised by `tools/filesystem.py` (each constructor is
one raise site, distinguished in the source by its message). -/
inductive Err where
  /-- `"Access denied ..."` / `"... can only read directories within a root ..."` -/
  | accessDenied
  /-- `"Error: '...' is not a file"` -/
  | notAFile
  /-- `"Error: '...' is not a directory"` -/
  | notADirectory
  /-- `"Error: Permission denied accessing '...'"` -/
  | permissionDenied
  /-- `"Invalid output format ..."` -/
  | invalidFormat
  /-- `"Path '...' is not an allowed root"` -/
  | invalidRoot
  /-- `"Failed to convert ...: <inner message>"` -/
  | conversionFailed (inner : ConvErr)
  deriving Repr, DecidableEq

/-- Observable side effects of a request, in order of occurrence: opening a
document for extraction, and writing a destination file. -/
inductive Ev where
  | extract (p : PathC)
  | write (p : PathC)
  deriving Repr, DecidableEq

/-- Run the extraction backend on a stored file, dispatching on the suffix
exactly as `convert` does (`if input_file.suffix.lower() == ".pdf"`); a
suffix/content mismatch is a backend failure. -/
def extractFile (f : FileEntry) : Except ConvErr RawContent :=
  if suffixLower (nameOf f.path) = ".pdf" then
    match f.doc with
    | DocSource.pdf pages => Except.ok (extract_from_pdf pages (nameOf f.path))
    | _ => Except.error ConvErr.extractionFailure
  else
    match f.doc with
    | DocSource.image t w h => Except.ok (extract_from_image t (nameOf f.path) w h)
    | _ => Except.error ConvErr.extractionFailure

/-- The `if output_format == ...` dispatch at the end of
`DocumentConverter.convert`. -/
def formatOut (raw : RawContent) (fmt : String) : Except ConvErr String :=
  if fmt = "text" then Except.ok (format_as_text raw)
  else if fmt = "markdown" then Except.ok (format_as_markdown raw)
  else if fmt = "json" then Except.ok (format_as_json raw)
  else Except.error ConvErr.badOutputFormat

/-- `DocumentConverter.convert` (with `validate_input` inlined, lines 23–56):
existence check, then extension check, then extraction — the `Ev.extract`
event marks the document actually being opened — then rendering.  The result
is paired with the emitted event trace. -/
def DocumentConverter_convert (fs : FS) (p : PathC) (fmt : String) :
    Except ConvErr String × List Ev :=
  if fs.existsPath p = false then (Except.error ConvErr.notFound, [])
  else if (SUPPORTED_INPUT_FORMATS.contains (extOfName (nameOf p))) = false then
    (Except.error ConvErr.unsupportedFormat, [])
  else
    match fs.findFile p with
    | none =>
      -- an existing non-file target: the backend open itself fails
      (Except.error ConvErr.extractionFailure, [Ev.extract p])
    | some f =>
      match extractFile f with
      | Except.error e => (Except.error e, [Ev.extract p])
      | Except.ok raw => (formatOut raw fmt, [Ev.extract p])

/-! ### `read_directory` (filesystem.py 61–93) -/

/-- The per-entry record built by `read_directory`: `extension` and `size`
keys are present only for files. -/
structure EntryInfo where
  name : String
  etype : String
  path : PathC
  extension : Option String
  size : Option Nat
  deriving Repr, DecidableEq

/-- `p` is an immediate child of `d`. -/
def isChildOf (d p : PathC) : Bool :=
  p.length == d.length + 1 && d.isPrefixOf p

/-- `requested_path.iterdir()` with the per-entry dict construction of the
source loop; the enumeration order (directories as stored, then files as
stored) models the unspecified OS order, which the subsequent sort makes
irrelevant. -/
def childEntries (fs : FS) (d : PathC) : List EntryInfo :=
  (fs.dirs.filter (fun p => isChildOf d p)).map (fun p =>
    { name := nameOf p, etype := "directory", path := p,
      extension := none, size := none }) ++
  (fs.files.filter (fun f => isChildOf d f.path)).map (fun f =>
    { name := nameOf f.path, etype := "file", path := f.path,
      extension := some (suffixLower (nameOf f.path)), size := some f.size })

/-- The sort key comparison
`key=lambda x: (x["type"] == "file", x["name"].lower())` — Python tuple
order: directories (`False`) before files (`True`), then code-point order of
the lowercased name. -/
def entryLe (a b : EntryInfo) : Bool :=
  let fa := a.etype == "file"
  let fb := b.etype == "file"
  (!fa && fb) || (fa == fb && lexLe (lowerList a.name) (lowerList b.name))

/-- `read_directory(path, ctx)`: authorization, directory check, enumeration
(an OS enumeration error becomes `PermissionDenied`), then
`files.sort(key=...)` — Python's stable ascending sort by `entryLe`,
modelled by the stable `insertionSort` (stable sorts under a total preorder
agree element for element). -/
def read_directory (fs : FS) (roots : List PathC) (path : PathC) :
    Except Err (List EntryInfo) :=
  let p := resolveComps path
  if is_path_allowed fs roots p = false then Except.error Err.accessDenied
  else if fs.isDir p = false then Except.error Err.notADirectory
  else if fs.failingDirs.contains p then Except.error Err.permissionDenied
  else Except.ok (List.insertionSort (fun a b => entryLe a b = true) (childEntries fs p))

/-! ### `find_documents` (filesystem.py 96–143) -/

/-- One token of a compiled `fnmatch` name pattern. -/
inductive GTok where
  /-- `*` -/
  | star
  /-- `?` -/
  | qmark
  /-- a character class `[seq]` / `[!seq]`: negation flag and content -/
  | cls (neg : Bool) (items : List Char)
  /-- a literal character -/
  | ch (c : Char)
  deriving Repr, DecidableEq

/-- Scan a character class after an opening `[`, with `fnmatch`'s quirks: a
leading `!` negates, a `]` immediately after that is a literal member, and a
`[` with no closing `]` is no class at all (it stays a literal). Returns the
negation flag, the class content and the rest of the pattern. -/
def classSplit (rest : List Char) : Option (Bool × List Char × List Char) :=
  let stripped := match rest with
    | '!' :: t => (true, t)
    | _ => (false, rest)
  match stripped with
  | (neg, ']' :: r2) =>
    (match r2.findIdx? (fun c => c == ']') with
     | some k => some (neg, ']' :: r2.take k, r2.drop (k + 1))
     | none => none)
  | (neg, r1) =>
    (match r1.findIdx? (fun c => c == ']') with
     | some k => some (neg, r1.take k, r1.drop (k + 1))
     | none => none)

/-- Membership of a character in a class body: `a-b` spans the code-point
range, any other character stands for itself. -/
def classItemsMatch : List Char → Char → Bool
  | [], _ => false
  | a :: '-' :: b :: rest, c =>
    (decide (a.toNat ≤ c.toNat) && decide (c.toNat ≤ b.toNat)) ||
      classItemsMatch rest c
  | a :: rest, c => (a == c) || classItemsMatch rest c

/-- One character against a (possibly negated) class. -/
def classMatch (neg : Bool) (items : List Char) (c : Char) : Bool :=
  if neg then !(classItemsMatch items c) else classItemsMatch items c

/-- Compile a glob pattern to tokens.  The fuel argument only serves
structural recursion (a class consumes a variable number of characters);
`parseGlob` supplies the pattern length, which every step strictly
decreases below. -/
def parseGlobF : Nat → List Char → List GTok
  | _, [] => []
  | 0, _ :: _ => []
  | f + 1, c :: rest =>
    if c == '*' then GTok.star :: parseGlobF f rest
    else if c == '?' then GTok.qmark :: parseGlobF f rest
    else if c == '[' then
      match classSplit rest with
      | some (neg, items, rest') => GTok.cls neg items :: parseGlobF f rest'
      | none => GTok.ch '[' :: parseGlobF f rest
    else GTok.ch c :: parseGlobF f rest

/-- Compile a glob pattern to tokens. -/
def parseGlob (pat : List Char) : List GTok :=
  parseGlobF pat.length pat

/-- Token-level `fnmatch` matching: `star` tries every suffix of the text,
`qmark` consumes one character, a class tests its one character, a literal
must coincide. -/
def globMatchT : List GTok → List Char → Bool
  | [], cs => cs.isEmpty
  | GTok.star :: ps, cs => cs.tails.any (fun t => globMatchT ps t)
  | GTok.qmark :: ps, cs =>
    (match cs with
     | [] => false
     | _ :: cs' => globMatchT ps cs')
  | GTok.cls neg items :: ps, cs =>
    (match cs with
     | [] => false
     | c :: cs' => classMatch neg items c && globMatchT ps cs')
  | GTok.ch p :: ps, cs =>
    (match cs with
     | [] => false
     | c :: cs' => p == c && globMatchT ps cs')

/-- `fnmatch`-style matching of a glob pattern against one name component:
`*` matches any run, `?` any single character, `[seq]` a character class,
anything else itself.  (Patterns carrying a path separator or a `**`
component make `pathlib.glob` match across directories and are not covered
by this name-component model; the discovery claims exclude them.) -/
def globMatch (pat : List Char) (cs : List Char) : Bool :=
  globMatchT (parseGlob pat) cs

/-- `'*' in pattern or '?' in pattern`. -/
def hasGlobChar (pattern : String) : Bool :=
  pattern.toList.any (fun c => c == '*' || c == '?')

/-- The name pattern the source hands to `Path.glob`: the pattern itself
when it contains a glob metacharacter, `f"**/*{pattern}*"` otherwise. -/
def searchPatFor (pattern : String) : List Char :=
  if hasGlobChar pattern then pattern.toList
  else '*' :: pattern.toList ++ ['*']

/-- `f.path` lies strictly below `root` (`root.glob("**/...")` only yields
entries at depth ≥ 1). -/
def strictlyUnder (root p : PathC) : Bool :=
  root.isPrefixOf p && decide (root.length < p.length)

/-- One root's scan: glob over the tree (directory matches are discarded by
the `match.is_file()` guard, so only stored files are considered), then the
supported-extension filter, then the result dict. -/
structure Hit where
  path : PathC
  name : String
  extension : String
  size : Nat
  root : PathC
  deriving Repr, DecidableEq

/-- The hits one root contributes. -/
def rootHits (fs : FS) (pattern : String) (root : PathC) : List Hit :=
  (fs.files.filter (fun f =>
    strictlyUnder root f.path &&
    globMatch (searchPatFor pattern) (nameOf f.path).toList)).filterMap
    (fun f =>
      let ext := extOfName (nameOf f.path)
      if SUPPORTED_INPUT_FORMATS.contains ext then
        some { path := f.path, name := nameOf f.path, extension := ext,
               size := f.size, root := root }
      else none)

/-- The `for root in search_paths: try ... except` loop: a failing root is
downgraded to a soft diagnostic (`ctx.info`), recorded here as the failed
root's path. -/
def scanRoots (fs : FS) (pattern : String) (searchPaths : List PathC) :
    List Hit × List PathC :=
  searchPaths.foldl
    (fun acc root =>
      if fs.failingDirs.contains root then (acc.1, acc.2 ++ [root])
      else (acc.1 ++ rootHits fs pattern root, acc.2))
    ([], [])

/-- `find_documents(pattern, root_path, ctx)`: an explicit `root_path` must
itself be a granted root; the scan never raises for individual root
failures. -/
def find_documents (fs : FS) (roots : List PathC) (pattern : String)
    (root_path : Option PathC) : Except Err (List Hit × List PathC) :=
  match root_path with
  | some rp =>
    if roots.contains rp then Except.ok (scanRoots fs pattern [rp])
    else Except.error Err.invalidRoot
  | none => Except.ok (scanRoots fs pattern roots)

/-! ### `convert_document` and `save_conversion` (filesystem.py 146–209) -/

/-- `convert_document(input_path, output_format, ctx)`: resolve, authorize,
file check, output-format check, then `DocumentConverter.convert` with every
inner error wrapped into the `"Failed to convert ..."` `ValueError`. -/
def convert_document (fs : FS) (roots : List PathC) (input : PathC)
    (fmt : String) : Except Err String × List Ev :=
  let input_file := resolveComps input
  if is_path_allowed fs roots input_file = false then
    (Except.error Err.accessDenied, [])
  else if fs.isFile input_file = false then (Except.error Err.notAFile, [])
  else if (OUTPUT_FORMATS.contains fmt) = false then
    (Except.error Err.invalidFormat, [])
  else
    match DocumentConverter_convert fs input_file fmt with
    | (Except.ok s, evs) => (Except.ok s, evs)
    | (Except.error e, evs) => (Except.error (Err.conversionFailed e), evs)

/-- Render a component path back to a display string. -/
def renderPath (p : PathC) : String :=
  "/" ++ String.intercalate "/" p

/-- `save_conversion(input_path, output_path, output_format, ctx)`: the
output parent is authorized first, then the conversion runs, then the
rendered text is written (`Ev.write`; the model write does not fail, and no
directory is ever created). -/
def save_conversion (fs : FS) (roots : List PathC) (input output : PathC)
    (fmt : String) : Except Err String × List Ev :=
  let output_file := resolveComps output
  if is_path_allowed fs roots output_file.dropLast = false then
    (Except.error Err.accessDenied, [])
  else
    match convert_document fs roots input fmt with
    | (Except.error e, evs) => (Except.error e, evs)
    | (Except.ok _, evs) =>
      (Except.ok ("Successfully converted and saved to " ++ renderPath output_file),
       evs ++ [Ev.write output_file])

/-! ### Spec-side definitions (phrasing the claims' vocabulary) -/

/-- First-match-wins field extraction as the spec words it: the ordered
pattern list is searched and the first successful pattern's stripped capture
is the field value. -/
def first_match_spec (pats : List Pat) (text : String) : Option String :=
  (pats.findSome? (fun p => re_search p text.toList)).map
    (fun c => (pyStrip c).asString)

/-- Markdown header lines preceding the field table: document-type heading,
bold receipt number, organization heading — each only when present (and
truthy). -/
def md_header_lines (r : ParsedRecord) : List String :=
  (match optTruthy r.document_type with
   | some t => ["# " ++ t, ""]
   | none => []) ++
  (match optTruthy r.receipt_no with
   | some rn => ["**No. Resit:** " ++ rn, ""]
   | none => []) ++
  (match optTruthy r.organization with
   | some o => ["## " ++ o, ""]
   | none => [])

/-- Exactly one `| **label** | value |` table row per matched field, in the
renderer's fixed field order, unmatched fields omitted. -/
def md_field_rows (r : ParsedRecord) : List String :=
  MD_FIELD_MAPPINGS.filterMap (fun m =>
    (getField r m.2).map (fun v => "| **" ++ m.1 ++ "** | " ++ v ++ " |"))

/-- The payment-items subsection: heading plus one numbered line per item,
verbatim in document order; empty when there are no items. -/
def md_items_section (r : ParsedRecord) : List String :=
  if r.payment_items.isEmpty then []
  else ["", "### Jenis Bayaran", ""] ++ r.payment_items.map itemLine

/-- The matching rule as the spec words it: a glob on the filename when the
pattern carries a metacharacter, a case-sensitive substring test otherwise. -/
def discovery_match_spec (pattern name : String) : Bool :=
  if hasGlobChar pattern then globMatch pattern.toList name.toList
  else containsSub pattern.toList name.toList

/-- The discovery result as the spec words it: for each scanned root, the
files strictly below it whose name matches and whose extension is supported,
tagged with extension, size and originating root. -/
def spec_find (fs : FS) (roots : List PathC) (pattern : String) : List Hit :=
  roots.flatMap (fun root =>
    (fs.files.filter (fun f =>
      strictlyUnder root f.path &&
      discovery_match_spec pattern (nameOf f.path))).filterMap (fun f =>
        let ext := extOfName (nameOf f.path)
        if SUPPORTED_INPUT_FORMATS.contains ext then
          some { path := f.path, name := nameOf f.path, extension := ext,
                 size := f.size, root := root }
        else none))

/-- The listing-order invariant as the spec words it: directories strictly
before files, case-insensitive (code-point) name order inside a group. -/
def listing_order (a b : EntryInfo) : Prop :=
  (a.etype = "directory" ∧ b.etype = "file") ∨
  (a.etype = b.etype ∧ lexLe (lowerList a.name) (lowerList b.name) = true)

/-- The `items` array of the rendered JSON. -/
def jsonItems (d : RawContent) : List JValue :=
  match lookupJ (format_as_json_obj d) "items" with
  | some (JValue.arr xs) => xs
  | _ => []

/-! ### Concrete fixtures used by witnesses and counterexamples -/

/-- A one-page PDF source whose text parses into several fields and items. -/
def samplePdfDoc : DocSource :=
  DocSource.pdf
    [⟨"RESIT RASMI     No. Resit : 2025E0004343673 PERKESO Jumlah Bayaran : RM28.80", []⟩]

/-- Filesystem for the authorization witnesses: `/home/user` and its sibling
`/home/user2` exist, `/tmp/receipt.pdf` is a PDF file, `/etc/passwd` is a
plain file. -/
def fsMain : FS :=
  { dirs := [[], ["home"], ["home", "user"], ["home", "user2"], ["tmp"], ["etc"]],
    files :=
      [ { path := ["tmp", "receipt.pdf"], size := 2048, doc := samplePdfDoc },
        { path := ["etc", "passwd"], size := 100,
          doc := DocSource.image "root:x:0:0" 1 1 } ],
    failingDirs := [] }

/-- The granted roots of the security scenarios: `/home/user` and `/tmp`. -/
def rootsMain : List PathC := [["home", "user"], ["tmp"]]

/-- Extraction result of an image whose OCR text sets only `payment_type`. -/
def exampleImageRaw : RawContent :=
  extract_from_image "Jenis Bayaran: FPX CASA" "receipt.png" 640 480

/-- The parser-partiality example text: only a receipt-number label and a
total-amount label. -/
def c6ExampleText : String := "Receipt No : ABC123\nTotal : RM5.00"

/-- An extraction result with several matched fields (among them
`payment_type`) and three payment items, for the markdown-rendering
witness. -/
def exampleMdRaw : RawContent :=
  { srcType := "image", raw_text := "", images := [],
    parsed :=
      { datetime := some "01/02/2025 10:00", payment_type := some "FPX",
        total_amount := some "RM28.80",
        payment_items :=
          [⟨"1", "Caruman Bulanan"⟩, ⟨"2", "Faedah"⟩, ⟨"3", "Lain-lain"⟩] },
    filename := "receipt.png" }

/-- Filesystem for the listing witness: `/d` contains `b.txt`, `A_dir` and
`a.txt`. -/
def fsListing : FS :=
  { dirs := [[], ["d"], ["d", "A_dir"]],
    files :=
      [ { path := ["d", "b.txt"], size := 3, doc := DocSource.image "" 1 1 },
        { path := ["d", "a.txt"], size := 4, doc := DocSource.image "" 1 1 } ],
    failingDirs := [] }

/-- Filesystem for the character-class counterexample: `/g/ab.pdf` and
`/g/a[b].pdf` under the granted root `/g`. -/
def fsGlob : FS :=
  { dirs := [[], ["g"]],
    files :=
      [ { path := ["g", "ab.pdf"], size := 1, doc := samplePdfDoc },
        { path := ["g", "a[b].pdf"], size := 2, doc := samplePdfDoc } ],
    failingDirs := [] }

/-- Filesystem for the discovery witness: two roots, one failing, plus
documents of the supported and unsupported kinds. -/
def fsFind : FS :=
  { dirs := [[], ["docs"], ["docs", "sub"], ["broken"]],
    files :=
      [ { path := ["docs", "invoice_a.pdf"], size := 10, doc := samplePdfDoc },
        { path := ["docs", "sub", "invoice_b.PDF"], size := 20, doc := samplePdfDoc },
        { path := ["docs", "invoice_c.txt"], size := 30, doc := DocSource.image "" 1 1 },
        { path := ["docs", "photo.png"], size := 40, doc := DocSource.image "x" 9 9 },
        { path := ["broken", "invoice_d.pdf"], size := 50, doc := samplePdfDoc } ],
    failingDirs := [["broken"]] }

/-! ## Supporting lemmas -/

/-- The `resolveComps` fold leaves a dot-free component list unchanged. -/
theorem foldl_resolve_step (l : PathC) (h : ∀ c ∈ l, c ≠ "." ∧ c ≠ "..") :
    ∀ acc : PathC,
      l.foldl (fun acc c =>
        if c = "." then acc
        else if c = ".." then acc.dropLast
        else acc ++ [c]) acc = acc ++ l := by
  induction l with
  | nil => intro acc; simp
  | cons x t ih =>
    intro acc
    have hx := h x (List.mem_cons_self x t)
    have ht : ∀ c ∈ t, c ≠ "." ∧ c ≠ ".." := fun c hc => h c (List.mem_cons_of_mem x hc)
    simp only [List.foldl_cons, if_neg hx.1, if_neg hx.2, ih ht (acc ++ [x]),
      List.append_assoc, List.singleton_append]

/-- `resolveComps` is the identity on dot-free component lists. -/
theorem resolveComps_eq_self {l : PathC} (h : ∀ c ∈ l, c ≠ "." ∧ c ≠ "..") :
    resolveComps l = l := by
  simpa [resolveComps] using foldl_resolve_step l h []

/-- Every component of a resolved path is dot-free. -/
theorem mem_resolveComps (p : PathC) : ∀ c ∈ resolveComps p, c ≠ "." ∧ c ≠ ".." := by
  suffices h : ∀ (l acc : PathC), (∀ c ∈ acc, c ≠ "." ∧ c ≠ "..") →
      ∀ c ∈ l.foldl (fun acc c =>
        if c = "." then acc
        else if c = ".." then acc.dropLast
        else acc ++ [c]) acc, c ≠ "." ∧ c ≠ ".." by
    intro c hc
    exact h p [] (by simp) c hc
  intro l
  induction l with
  | nil => intro acc hacc c hc; exact hacc c hc
  | cons x t ih =>
    intro acc hacc c hc
    simp only [List.foldl_cons] at hc
    by_cases hdot : x = "."
    · exact ih acc hacc c (by simpa [hdot] using hc)
    · by_cases hdd : x = ".."
      · refine ih acc.dropLast (fun d hd => hacc d ((List.dropLast_sublist acc).subset hd)) c ?_
        simpa [hdot, hdd] using hc
      · refine ih (acc ++ [x]) (fun d hd => ?_) c (by simpa [hdot, hdd] using hc)
        rcases List.mem_append.mp hd with hmem | hmem
        · exact hacc d hmem
        · simp only [List.mem_singleton] at hmem
          exact hmem ▸ ⟨hdot, hdd⟩

/-- Resolution is idempotent. -/
theorem resolveComps_idem (p : PathC) : resolveComps (resolveComps p) = resolveComps p :=
  resolveComps_eq_self (mem_resolveComps p)

/-- The parent of a resolved path is already resolved. -/
theorem resolveComps_dropLast (p : PathC) :
    resolveComps (resolveComps p).dropLast = (resolveComps p).dropLast :=
  resolveComps_eq_self (fun c hc =>
    mem_resolveComps p c ((List.dropLast_sublist (resolveComps p)).subset hc))

/-- `is_path_allowed` only looks at the resolved form of its argument. -/
theorem is_path_allowed_resolve (fs : FS) (roots : List PathC) (p : PathC) :
    is_path_allowed fs roots (resolveComps p) = is_path_allowed fs roots p := by
  simp only [is_path_allowed, resolveComps_idem]

/-- A proper prefix of a list is a prefix of its `dropLast`. -/
theorem prefix_dropLast_of_proper {r p : PathC} (h : r <+: p) (hne : r ≠ p) :
    r <+: p.dropLast := by
  rw [List.dropLast_eq_take, List.prefix_take_iff]
  refine ⟨h, ?_⟩
  have hlt : r.length < p.length := by
    rcases Nat.lt_or_ge r.length p.length with hlt | hge
    · exact hlt
    · exact absurd (h.eq_of_length (Nat.le_antisymm h.length_le hge)) hne
  omega

/-! ## Claim C1: the containment invariant of `is_path_allowed` -/

/-- For an existing resolved target, `is_path_allowed` succeeds exactly when
the canonical target (resolved, a file replaced by its parent) equals some
granted root or lies strictly below one. -/
theorem is_path_allowed_iff_of_exists (fs : FS) (roots : List PathC) (p : PathC)
    (h : fs.existsPath (resolveComps p) = true) :
    is_path_allowed fs roots p = true ↔
      contained_in_some_root roots (effective_target fs p) := by
  have hcond : ¬ (fs.existsPath (resolveComps p) = false) := by simp [h]
  simp only [is_path_allowed, contained_in_some_root, effective_target,
    if_neg hcond, List.any_eq_true, List.isPrefixOf_iff_prefix]
  refine exists_congr fun r => and_congr_right fun _ => ⟨fun hp => ?_, fun hp => ?_⟩
  · rcases eq_or_ne r (if fs.isFile (resolveComps p) = true then
      (resolveComps p).dropLast else resolveComps p) with heq | hne
    · exact Or.inl heq.symm
    · exact Or.inr ⟨hp, hne⟩
  · rcases hp with heq | ⟨hpre, _⟩
    · exact heq ▸ List.prefix_rfl
    · exact hpre

/-- C1 counterexample: for the non-existing path `/tmp/missing.pdf` the
claim's containment predicate holds — the granted root `/tmp` is a strict
ancestor of the canonical target — yet `is_path_allowed` returns false,
because its `exists()` check rejects the path first (filesystem.py 21–22);
the frozen unconditional biconditional is therefore false. -/
theorem claim_C1_counterexample :
    is_path_allowed fsMain rootsMain ["tmp", "missing.pdf"] = false ∧
    contained_in_some_root rootsMain
      (effective_target fsMain ["tmp", "missing.pdf"]) :=
  ⟨by decide, ⟨["tmp"], by decide, Or.inr ⟨⟨["missing.pdf"], rfl⟩, by decide⟩⟩⟩

/-- C1 (amended).  For every candidate path `p` and granted root set `R`,
`is_path_allowed` succeeds if and only if the resolved form of `p` exists on
disk *and* the canonical target (with a file's parent directory substituted
for the file itself) equals or is a descendant of some root in `R`; a
non-existing path is rejected even when the containment holds.  Because
containment is tested component-wise, a sibling directory whose name is a
string-superstring of a root's name (`/home/user2` against root
`/home/user`) is still rejected. -/
theorem claim_C1_amended (fs : FS) (roots : List PathC) (p : PathC) :
    is_path_allowed fs roots p = true ↔
      (fs.existsPath (resolveComps p) = true ∧
        contained_in_some_root roots (effective_target fs p)) := by
  cases hex : fs.existsPath (resolveComps p) with
  | true =>
    rw [is_path_allowed_iff_of_exists fs roots p hex]
    simp
  | false =>
    simp [is_path_allowed, hex]

/-! ## Claims C2 / C10 / C4: gating of conversion and saving -/

/-- A stored file can be looked up. -/
theorem findFile_isSome_of_isFile {fs : FS} {p : PathC} (h : fs.isFile p = true) :
    ∃ f, fs.findFile p = some f := by
  rw [← Option.isSome_iff_exists, FS.findFile, List.find?_isSome]
  simpa [FS.isFile, List.any_eq_true] using h

/-- Once validation passes, `DocumentConverter.convert` opens the document:
its event trace is exactly one extraction, whatever the outcome. -/
theorem DC_convert_snd (fs : FS) (p : PathC) (fmt : String)
    (hex : fs.isFile p = true)
    (hsup : SUPPORTED_INPUT_FORMATS.contains (extOfName (nameOf p)) = true) :
    (DocumentConverter_convert fs p fmt).2 = [Ev.extract p] := by
  obtain ⟨f, hf⟩ := findFile_isSome_of_isFile hex
  have hexists : fs.existsPath p = true := by simp [FS.existsPath, hex]
  simp only [DocumentConverter_convert, hexists, hsup, hf]
  cases extractFile f <;> simp

/-- C2.  `convert_document` fails with the access-denied error and performs
no extraction whenever the resolved input lies outside every granted root;
and for an input that is an existing file strictly inside a granted root,
with a supported extension and a valid output-format token, the call
proceeds to extraction (exactly one document open is traced). -/
theorem claim_C2 (fs : FS) (roots : List PathC) (input : PathC) (fmt : String) :
    ((∀ r ∈ roots, ¬ (r <+: resolveComps input)) →
      convert_document fs roots input fmt = (Except.error Err.accessDenied, [])) ∧
    ((∃ r ∈ roots, r <+: resolveComps input ∧ r ≠ resolveComps input) →
      fs.isFile (resolveComps input) = true →
      SUPPORTED_INPUT_FORMATS.contains (extOfName (nameOf (resolveComps input))) = true →
      OUTPUT_FORMATS.contains fmt = true →
      (convert_document fs roots input fmt).2 = [Ev.extract (resolveComps input)]) := by
  constructor
  · intro houtside
    have hallow : is_path_allowed fs roots (resolveComps input) = false := by
      simp only [is_path_allowed, resolveComps_idem]
      by_cases hfe : fs.existsPath (resolveComps input) = false
      · simp [hfe]
      · rw [if_neg hfe, Bool.eq_false_iff]
        intro hcontra
        simp only [List.any_eq_true, List.isPrefixOf_iff_prefix] at hcontra
        obtain ⟨r, hr, hpre⟩ := hcontra
        by_cases hfile : fs.isFile (resolveComps input) = true
        · rw [if_pos hfile] at hpre
          exact houtside r hr (hpre.trans (List.dropLast_prefix _))
        · rw [if_neg hfile] at hpre
          exact houtside r hr hpre
    simp [convert_document, hallow]
  · rintro ⟨r, hr, hpre, hne⟩ hfile hsup hfmt
    have hallow : is_path_allowed fs roots (resolveComps input) = true := by
      rw [is_path_allowed]
      simp only [resolveComps_idem]
      have hexists : ¬ (fs.existsPath (resolveComps input) = false) := by
        simp [FS.existsPath, hfile]
      rw [if_neg hexists, if_pos hfile]
      rw [List.any_eq_true]
      exact ⟨r, hr, List.isPrefixOf_iff_prefix.mpr (prefix_dropLast_of_proper hpre hne)⟩
    have hfmt' : fmt ∈ OUTPUT_FORMATS := by simpa using hfmt
    have hsnd := DC_convert_snd fs (resolveComps input) fmt hfile hsup
    rcases hres : DocumentConverter_convert fs (resolveComps input) fmt with ⟨res, evs⟩
    rw [hres] at hsnd
    simp only at hsnd
    subst hsnd
    cases res <;>
      simp [convert_document, hallow, hfile, hfmt, hfmt', hres]

/-- C2 witness: with roots `/home/user` and `/tmp`, converting `/etc/passwd`
is denied with no extraction, while converting `/tmp/receipt.pdf` traces
exactly one document open. -/
theorem claim_C2_witness :
    convert_document fsMain rootsMain ["etc", "passwd"] "markdown" =
      (Except.error Err.accessDenied, []) ∧
    (convert_document fsMain rootsMain ["tmp", "receipt.pdf"] "markdown").2 =
      [Ev.extract ["tmp", "receipt.pdf"]] :=
  ⟨(claim_C2 fsMain rootsMain ["etc", "passwd"] "markdown").1 (by decide),
   (claim_C2 fsMain rootsMain ["tmp", "receipt.pdf"] "markdown").2
     ⟨["tmp"], by decide, by decide, by decide⟩ (by decide) (by decide) (by decide)⟩

/-- C10.  When the parent directory of the resolved output path does not
exist, `save_conversion` fails with the access-denied error before any
conversion or write: the event trace is empty (no extraction, no write, and
the model has no directory-creation effect at all), regardless of whether
that parent lies inside a granted root. -/
theorem claim_C10 (fs : FS) (roots : List PathC) (input output : PathC)
    (fmt : String)
    (h : fs.existsPath ((resolveComps output).dropLast) = false) :
    save_conversion fs roots input output fmt =
      (Except.error Err.accessDenied, []) := by
  have hallow : is_path_allowed fs roots (resolveComps output).dropLast = false := by
    simp [is_path_allowed, resolveComps_dropLast, h]
  simp [save_conversion, hallow]

/-- C10 witness: `/tmp/newdir` does not exist but lies inside the granted
root `/tmp`; saving to `/tmp/newdir/out.md` is denied with an empty trace. -/
theorem claim_C10_witness :
    fsMain.existsPath ((resolveComps ["tmp", "newdir", "out.md"]).dropLast) = false ∧
    (["tmp"] <+: (resolveComps ["tmp", "newdir", "out.md"]).dropLast) ∧
    save_conversion fsMain rootsMain ["tmp", "receipt.pdf"]
      ["tmp", "newdir", "out.md"] "markdown" = (Except.error Err.accessDenied, []) :=
  ⟨by decide, by decide,
   claim_C10 fsMain rootsMain ["tmp", "receipt.pdf"] ["tmp", "newdir", "out.md"]
     "markdown" (by decide)⟩

/-- C4 counterexample: `/tmp/missing.pdf` does not exist (and its directory
`/tmp` is a granted root); `convert_document` raises the access-denied
error, not the not-found error the claim requires — the only not-found raise
site, `validate_input`, is never reached. -/
theorem claim_C4_counterexample :
    convert_document fsMain rootsMain ["tmp", "missing.pdf"] "markdown" =
      (Except.error Err.accessDenied, []) ∧
    Err.accessDenied ≠ Err.conversionFailed ConvErr.notFound := by
  exact ⟨rfl, by decide⟩

/-- C4 (amended).  A read-mode request whose resolved path does not exist
fails with the same access-denied error as an out-of-roots path, for both
`convert_document` and `read_directory`: `is_path_allowed` returns false for
non-existing paths, so the access-denied raise covers non-existing paths as
well and the not-found error of `validate_input` is unreachable through
these entry points. -/
theorem claim_C4_amended (fs : FS) (roots : List PathC) (p : PathC)
    (fmt : String) (h : fs.existsPath (resolveComps p) = false) :
    convert_document fs roots p fmt = (Except.error Err.accessDenied, []) ∧
    read_directory fs roots p = Except.error Err.accessDenied := by
  have hallow : is_path_allowed fs roots (resolveComps p) = false := by
    simp [is_path_allowed, resolveComps_idem, h]
  exact ⟨by simp [convert_document, hallow], by simp [read_directory, hallow]⟩

/-- C4 witness for the amended statement, at the non-existing path
`/tmp/missing.pdf`. -/
theorem claim_C4_witness :
    fsMain.existsPath (resolveComps ["tmp", "missing.pdf"]) = false ∧
    (convert_document fsMain rootsMain ["tmp", "missing.pdf"] "markdown" =
        (Except.error Err.accessDenied, []) ∧
      read_directory fsMain rootsMain ["tmp", "missing.pdf"] =
        Except.error Err.accessDenied) :=
  ⟨by decide,
   claim_C4_amended fsMain rootsMain ["tmp", "missing.pdf"] "markdown" (by decide)⟩

/-! ## Claim C3: the markdown field table -/

/-- The per-field output loop is the `filterMap` over the mapping list:
one line per matched field, in mapping order, unmatched fields omitted. -/
theorem fieldLoop_eq (f : String → String → String)
    (maps : List (String × FieldKey)) (r : ParsedRecord) :
    fieldLoop f maps r =
      maps.filterMap (fun m => (getField r m.2).map (f m.1)) := by
  suffices haux : ∀ (ms : List (String × FieldKey)) (acc : List String),
      ms.foldl (fun acc m =>
        match getField r m.2 with
        | some v => acc ++ [f m.1 v]
        | none => acc) acc =
      acc ++ ms.filterMap (fun m => (getField r m.2).map (f m.1)) by
    simpa [fieldLoop] using haux maps []
  intro ms
  induction ms with
  | nil => intro acc; simp
  | cons m t ih =>
    intro acc
    cases hm : getField r m.2 <;> simp [hm, ih]

/-- C3 counterexample: an extraction result whose only matched field is
`payment_type` (a member of the claim's field list) renders with a table
that has no data row at all — the markdown mapping omits `payment_type`, so
"exactly one row per matched field" fails. -/
theorem claim_C3_counterexample :
    exampleImageRaw.parsed.payment_type = some "FPX CASA" ∧
    exampleImageRaw.parsed.isEmpty = false ∧
    format_as_markdown_lines exampleImageRaw =
      ["| Field | Value |", "|-------|-------|", "", "---",
       "*Generated from: receipt.png*"] := by
  refine ⟨by decide, by decide, by decide⟩

/-- C3 (amended).  For a non-empty parsed record the markdown output is the
header lines, the fixed two-line table head, then exactly one
`| **label** | value |` row per matched field of the markdown field list
(datetime, payment date, company code, company name, payment method,
transaction id, bank, total amount, notes — `payment_type` is not in this
table, it surfaces only as the payment-items heading), in that order with
unmatched fields omitted, then the payment-items section with the numbered
lines verbatim in document order, then the metadata trailer. -/
theorem claim_C3_amended (d : RawContent) (h : d.parsed.isEmpty = false) :
    format_as_markdown_lines d =
      md_header_lines d.parsed ++ ["| Field | Value |", "|-------|-------|"] ++
      md_field_rows d.parsed ++ md_items_section d.parsed ++
      ["", "---", "*Generated from: " ++ d.filename ++ "*"] := by
  simp only [format_as_markdown_lines, h, md_header_lines, md_field_rows,
    md_items_section, fieldLoop_eq]
  simp [List.append_assoc]

/-- C3 witness: the decomposition at a record with three matched fields and
three payment items. -/
theorem claim_C3_witness :
    exampleMdRaw.parsed.isEmpty = false ∧
    format_as_markdown_lines exampleMdRaw =
      md_header_lines exampleMdRaw.parsed ++
      ["| Field | Value |", "|-------|-------|"] ++
      md_field_rows exampleMdRaw.parsed ++ md_items_section exampleMdRaw.parsed ++
      ["", "---", "*Generated from: " ++ exampleMdRaw.filename ++ "*"] :=
  ⟨by decide, claim_C3_amended exampleMdRaw (by decide)⟩

/-! ## Claim C6: first-match-wins field parsing -/

/-- The pattern loop equals the spec's first-match rule. -/
theorem tryPatterns_eq (cs : List Char) (pats : List Pat) :
    tryPatterns cs pats =
      (pats.findSome? (fun p => re_search p cs)).map
        (fun c => (pyStrip c).asString) := by
  induction pats with
  | nil => simp [tryPatterns]
  | cons p t ih =>
    cases h : re_search p cs <;> simp [tryPatterns, h, ih]

/-- C6.  Every semantic field of `parse_receipt_data` is the stripped
capture of the first pattern of its ordered list that matches (later
patterns are skipped); a field with no matching pattern is simply absent,
and the parser is a total function, so no error is possible.  On the text
carrying only a receipt-number label and a total-amount label the result
has exactly those two fields set. -/
theorem claim_C6 (text : String) :
    ((parse_receipt_data text).receipt_no = first_match_spec receipt_no_pats text ∧
     (parse_receipt_data text).datetime = first_match_spec datetime_pats text ∧
     (parse_receipt_data text).payment_date = first_match_spec payment_date_pats text ∧
     (parse_receipt_data text).payment_type = first_match_spec payment_type_pats text ∧
     (parse_receipt_data text).company_code = first_match_spec company_code_pats text ∧
     (parse_receipt_data text).company_name = first_match_spec company_name_pats text ∧
     (parse_receipt_data text).payment_method = first_match_spec payment_method_pats text ∧
     (parse_receipt_data text).transaction_id = first_match_spec transaction_id_pats text ∧
     (parse_receipt_data text).bank = first_match_spec bank_pats text ∧
     (parse_receipt_data text).total_amount = first_match_spec total_amount_pats text ∧
     (parse_receipt_data text).notes = first_match_spec notes_pats text) ∧
    parse_receipt_data c6ExampleText =
      { receipt_no := some "ABC123", total_amount := some "RM5.00" } := by
  constructor
  · refine ⟨?_, ?_, ?_, ?_, ?_, ?_, ?_, ?_, ?_, ?_, ?_⟩ <;>
      simp [parse_receipt_data, first_match_spec, tryPatterns_eq]
  · decide

/-! ## Claim C7: the JSON rendering -/

/-- A matched field makes the parsed dict truthy. -/
theorem isEmpty_false_of_getField {r : ParsedRecord} {k : FieldKey} {v : String}
    (h : getField r k = some v) : r.isEmpty = false := by
  cases k <;> simp only [getField] at h <;> simp [ParsedRecord.isEmpty, h]

/-- A payment item makes the parsed dict truthy. -/
theorem isEmpty_false_of_item {r : ParsedRecord} {it : PaymentItem}
    (h : it ∈ r.payment_items) : r.isEmpty = false := by
  have : r.payment_items.isEmpty = false := by
    cases hpi : r.payment_items with
    | nil => rw [hpi] at h; cases h
    | cons a t => simp
  simp [ParsedRecord.isEmpty, this]

/-- The `items` array is empty for a falsy parsed dict and otherwise the
in-order parsed entries. -/
theorem jsonItems_eq (d : RawContent) :
    jsonItems d = if d.parsed.isEmpty then [] else parsedItemsJson d.parsed := rfl

/-- C7.  The rendered JSON always has the fixed top-level shape
`pages / charts / items / metadata` with empty `charts`; every matched field
contributes a `field`-tagged item carrying its key and value; every payment
item contributes a `payment_item`-tagged item; the items array is exactly
the dict-order entry list and the PDF pages array maps the extracted pages
in order; for an image source the single synthesized page embeds the
markdown rendering under `md`; the metadata carries filename and source
kind. -/
theorem claim_C7 (d : RawContent) :
    topKeys (format_as_json_obj d) = ["pages", "charts", "items", "metadata"] ∧
    lookupJ (format_as_json_obj d) "charts" = some (JValue.arr []) ∧
    (∀ k v, getField d.parsed k = some v →
      fieldItemJson (keyName k) v ∈ jsonItems d) ∧
    (∀ it ∈ d.parsed.payment_items, paymentItemJson it ∈ jsonItems d) ∧
    (d.parsed.isEmpty = false → jsonItems d = parsedItemsJson d.parsed) ∧
    (d.srcType = "pdf" →
      lookupJ (format_as_json_obj d) "pages" =
        some (JValue.arr (d.pages.map pdfPageJson))) ∧
    (d.srcType = "image" →
      lookupJ (format_as_json_obj d) "pages" =
        some (JValue.arr [JValue.obj
          [("page", JValue.num 1), ("text", JValue.str d.raw_text),
           ("md", JValue.str (format_as_markdown d)),
           ("images", JValue.arr (d.images.map imgJson))]])) ∧
    lookupJ (format_as_json_obj d) "metadata" =
      some (JValue.obj
        [("filename", JValue.str d.filename), ("type", JValue.str d.srcType),
         ("processed_at", JValue.null)]) := by
  refine ⟨rfl, rfl, ?_, ?_, ?_, ?_, ?_, rfl⟩
  · intro k v h
    have hne := isEmpty_false_of_getField h
    rw [jsonItems_eq, hne]
    cases k <;>
      simp only [getField] at h <;>
      simp [parsedItemsJson, MAIN_FIELD_KEYS, List.mem_filterMap, keyName, getField, h]
  · intro it hit
    have hne := isEmpty_false_of_item hit
    rw [jsonItems_eq, hne]
    simp only [if_false, Bool.false_eq_true]
    simp [parsedItemsJson, List.mem_map]
    exact Or.inr (Or.inl ⟨it, hit, rfl⟩)
  · intro hne
    rw [jsonItems_eq, hne]
    simp
  · intro hp
    simp [format_as_json_obj, lookupJ, hp]
  · intro hp
    simp [format_as_json_obj, lookupJ, hp]

/-- C7 witness: the record with `total_amount = "RM28.80"` yields a `field`
item with key `total_amount` and value `RM28.80`, and the image page
carries the markdown rendering. -/
theorem claim_C7_witness :
    getField exampleMdRaw.parsed FieldKey.total_amount = some "RM28.80" ∧
    fieldItemJson "total_amount" "RM28.80" ∈ jsonItems exampleMdRaw ∧
    lookupJ (format_as_json_obj exampleMdRaw) "pages" =
      some (JValue.arr [JValue.obj
        [("page", JValue.num 1), ("text", JValue.str exampleMdRaw.raw_text),
         ("md", JValue.str (format_as_markdown exampleMdRaw)),
         ("images", JValue.arr (exampleMdRaw.images.map imgJson))]]) := by
  obtain ⟨-, -, hfield, -, -, -, himg, -⟩ := claim_C7 exampleMdRaw
  exact ⟨by decide, hfield FieldKey.total_amount "RM28.80" (by decide), himg rfl⟩

/-! ## Claims C5 / C8: document discovery -/

/-- The per-root fold of `find_documents`, flattened: hits from the
non-failing roots in order, failed roots as soft diagnostics. -/
theorem scanRoots_eq (fs : FS) (pattern : String) (sp : List PathC) :
    scanRoots fs pattern sp =
      (sp.flatMap (fun r =>
         if fs.failingDirs.contains r then [] else rootHits fs pattern r),
       sp.filter (fun r => fs.failingDirs.contains r)) := by
  suffices haux : ∀ (l : List PathC) (acc : List Hit × List PathC),
      l.foldl (fun acc root =>
        if fs.failingDirs.contains root then (acc.1, acc.2 ++ [root])
        else (acc.1 ++ rootHits fs pattern root, acc.2)) acc =
      (acc.1 ++ l.flatMap (fun r =>
         if fs.failingDirs.contains r then [] else rootHits fs pattern r),
       acc.2 ++ l.filter (fun r => fs.failingDirs.contains r)) by
    simpa [scanRoots] using haux sp ([], [])
  intro l
  induction l with
  | nil => intro acc; simp
  | cons r t ih =>
    intro acc
    rw [List.foldl_cons]
    cases hc : fs.failingDirs.contains r with
    | true =>
      rw [if_pos rfl, ih]
      simp only [List.flatMap_cons, List.filter_cons, hc, if_true,
        List.append_assoc, List.singleton_append, List.nil_append]
    | false =>
      rw [if_neg (by simp), ih]
      simp only [List.flatMap_cons, List.filter_cons, hc, Bool.false_eq_true,
        if_false, List.append_assoc]

/-- A plain character (no wildcard, no class opener) compiles to a literal
token. -/
theorem parseGlob_cons_plain {c : Char}
    (hc : ¬(c = '*' ∨ c = '?' ∨ c = '[')) (rest : List Char) :
    parseGlob (c :: rest) = GTok.ch c :: parseGlob rest := by
  have hcs : (c == '*') = false := by
    simp only [beq_eq_false_iff_ne, ne_eq]; intro h; exact hc (Or.inl h)
  have hcq : (c == '?') = false := by
    simp only [beq_eq_false_iff_ne, ne_eq]; intro h; exact hc (Or.inr (Or.inl h))
  have hcb : (c == '[') = false := by
    simp only [beq_eq_false_iff_ne, ne_eq]; intro h; exact hc (Or.inr (Or.inr h))
  simp [parseGlob, parseGlobF, hcs, hcq, hcb]

/-- A `*` compiles to the star token. -/
theorem parseGlob_cons_star (rest : List Char) :
    parseGlob ('*' :: rest) = GTok.star :: parseGlob rest := by
  simp [parseGlob, parseGlobF]

/-- A pattern of plain characters followed by `*` compiles to literal tokens
and a star. -/
theorem parseGlob_plain_append_star (p : List Char)
    (hp : ∀ c ∈ p, ¬(c = '*' ∨ c = '?' ∨ c = '[')) :
    parseGlob (p ++ ['*']) = p.map GTok.ch ++ [GTok.star] := by
  induction p with
  | nil => rfl
  | cons c p' ih =>
    rw [List.cons_append, parseGlob_cons_plain (hp c (List.mem_cons_self c p')),
      ih (fun d hd => hp d (List.mem_cons_of_mem c hd)), List.map_cons,
      List.cons_append]

/-- A leading star token searches every suffix. -/
theorem globMatchT_star_iff (ps : List GTok) (cs : List Char) :
    globMatchT (GTok.star :: ps) cs = true ↔
      ∃ n, globMatchT ps (cs.drop n) = true := by
  rw [show globMatchT (GTok.star :: ps) cs =
      cs.tails.any (fun t => globMatchT ps t) from rfl]
  rw [List.any_eq_true]
  constructor
  · rintro ⟨t, ht, hm⟩
    rw [List.mem_tails, List.suffix_iff_eq_drop] at ht
    exact ⟨cs.length - t.length, ht ▸ hm⟩
  · rintro ⟨n, hn⟩
    exact ⟨cs.drop n, (List.mem_tails _ _).mpr (List.drop_suffix n cs), hn⟩

/-- Literal tokens followed by a star token match exactly the texts the
literals are a prefix of. -/
theorem globMatchT_lit_star_iff (p : List Char) (cs : List Char) :
    globMatchT (p.map GTok.ch ++ [GTok.star]) cs = true ↔ p <+: cs := by
  induction p generalizing cs with
  | nil =>
    simp only [List.map_nil, List.nil_append]
    rw [globMatchT_star_iff]
    constructor
    · intro _; exact List.nil_prefix
    · intro _; exact ⟨cs.length, by simp [globMatchT]⟩
  | cons c p' ih =>
    cases cs with
    | nil => simp [globMatchT]
    | cons d cs' =>
      rw [List.map_cons, List.cons_append,
        show globMatchT (GTok.ch c :: (p'.map GTok.ch ++ [GTok.star])) (d :: cs') =
          ((c == d) && globMatchT (p'.map GTok.ch ++ [GTok.star]) cs') from rfl,
        Bool.and_eq_true, beq_iff_eq, ih cs', List.cons_prefix_cons]

/-- `containsSub` is the substring relation. -/
theorem containsSub_iff (p : List Char) (cs : List Char) :
    containsSub p cs = true ↔ ∃ n, p <+: cs.drop n := by
  induction cs with
  | nil =>
    simp [containsSub, List.isEmpty_iff, List.prefix_nil]
  | cons c t ih =>
    rw [show containsSub p (c :: t) = (p.isPrefixOf (c :: t) || containsSub p t) from rfl]
    rw [Bool.or_eq_true, List.isPrefixOf_iff_prefix, ih]
    constructor
    · rintro (h | ⟨n, hn⟩)
      · exact ⟨0, h⟩
      · exact ⟨n + 1, by simpa using hn⟩
    · rintro ⟨n, hn⟩
      cases n with
      | zero => exact Or.inl (by simpa using hn)
      | succ m => exact Or.inr ⟨m, by simpa using hn⟩

/-- For a pattern free of wildcards and class openers, the
`f"**/*{pattern}*"` glob the source builds is exactly the case-sensitive
substring test of the spec. -/
theorem glob_substring (p cs : List Char)
    (hp : ∀ c ∈ p, ¬(c = '*' ∨ c = '?' ∨ c = '[')) :
    globMatch ('*' :: (p ++ ['*'])) cs = containsSub p cs := by
  rw [globMatch, parseGlob_cons_star, parseGlob_plain_append_star p hp,
    Bool.eq_iff_iff, globMatchT_star_iff, containsSub_iff]
  exact exists_congr fun n => globMatchT_lit_star_iff p (cs.drop n)

/-- One root's scan equals the spec-side per-root hits, for patterns
without a character class. -/
theorem rootHits_eq_spec (fs : FS) (pattern : String) (root : PathC)
    (hbr : pattern.toList.contains '[' = false) :
    rootHits fs pattern root =
      (fs.files.filter (fun f =>
        strictlyUnder root f.path &&
        discovery_match_spec pattern (nameOf f.path))).filterMap (fun f =>
          let ext := extOfName (nameOf f.path)
          if SUPPORTED_INPUT_FORMATS.contains ext then
            some { path := f.path, name := nameOf f.path, extension := ext,
                   size := f.size, root := root }
          else none) := by
  rw [rootHits]
  congr 1
  apply List.filter_congr
  intro f _
  congr 1
  rw [searchPatFor, discovery_match_spec]
  cases hg : hasGlobChar pattern with
  | true => simp
  | false =>
    simp only [Bool.false_eq_true, if_false]
    apply glob_substring
    intro c hc hcontra
    rcases hcontra with h | h | h
    · rw [hasGlobChar, Bool.eq_false_iff] at hg
      exact hg (List.any_eq_true.mpr ⟨c, hc, by simp [h]⟩)
    · rw [hasGlobChar, Bool.eq_false_iff] at hg
      exact hg (List.any_eq_true.mpr ⟨c, hc, by simp [h]⟩)
    · have hmem : '[' ∈ pattern.toList := h ▸ hc
      have hcontains : pattern.toList.contains '[' = true := by simpa using hmem
      rw [hcontains] at hbr
      exact Bool.noConfusion hbr

/-- C8.  `find_documents` never raises for a root whose enumeration fails:
the call returns the concatenated hits of exactly the non-failing roots (each
scanned to completion) and reports every failing root only as a soft
diagnostic. -/
theorem claim_C8 (fs : FS) (roots : List PathC) (pattern : String) :
    find_documents fs roots pattern none =
      Except.ok
        (roots.flatMap (fun r =>
           if fs.failingDirs.contains r then [] else rootHits fs pattern r),
         roots.filter (fun r => fs.failingDirs.contains r)) := by
  simp [find_documents, scanRoots_eq]

/-- C5 counterexample: the pattern `a[b]` contains neither `*` nor `?`, so
the claim's rule is a case-sensitive substring match on the filename —
which holds for `a[b].pdf` and fails for `ab.pdf`.  The code instead runs
`root.glob("**/*a[b]*")`, where `[b]` is a character class: the scan
returns exactly `ab.pdf` and misses `a[b].pdf`, the opposite of the claimed
set. -/
theorem claim_C5_counterexample :
    hasGlobChar "a[b]" = false ∧
    containsSub "a[b]".toList "a[b].pdf".toList = true ∧
    containsSub "a[b]".toList "ab.pdf".toList = false ∧
    find_documents fsGlob [["g"]] "a[b]" none =
      Except.ok
        ([{ path := ["g", "ab.pdf"], name := "ab.pdf", extension := "pdf",
            size := 1, root := ["g"] }], []) :=
  ⟨by decide, by decide, by decide, rfl⟩

/-- C5 (amended).  Over a clean tree (no failing root) and a non-empty
pattern without a character class `[`, a path separator `/`, or a `**` —
outside that region `pathlib.glob` is not plain filename matching, as the
`a[b]` counterexample shows — `find_documents` returns exactly the files
under the scanned roots that match the pattern — a recursive glob on the
filename when the pattern carries `*` or `?`, a case-sensitive substring
match otherwise — and have a supported extension, each tagged with
extension, size and the root it was found under. -/
theorem claim_C5_amended (fs : FS) (roots : List PathC) (pattern : String)
    (_hne : pattern ≠ "")
    (hbr : pattern.toList.contains '[' = false)
    (_hsl : pattern.toList.contains '/' = false)
    (_hss : containsSub ['*', '*'] pattern.toList = false)
    (hclean : ∀ r ∈ roots, fs.failingDirs.contains r = false) :
    find_documents fs roots pattern none =
      Except.ok (spec_find fs roots pattern, []) := by
  have h1 : ∀ (l : List PathC), (∀ r ∈ l, fs.failingDirs.contains r = false) →
      l.flatMap (fun r =>
        if fs.failingDirs.contains r then [] else rootHits fs pattern r) =
      spec_find fs l pattern := by
    intro l
    induction l with
    | nil => intro _; simp [spec_find]
    | cons r t ih =>
      intro hl
      have hr := hl r (List.mem_cons_self r t)
      rw [List.flatMap_cons, hr, spec_find, List.flatMap_cons]
      simp only [Bool.false_eq_true, if_false]
      rw [rootHits_eq_spec fs pattern r hbr,
        ih (fun x hx => hl x (List.mem_cons_of_mem r hx)), spec_find]
  have h2 : roots.filter (fun r => fs.failingDirs.contains r) = [] :=
    List.filter_eq_nil_iff.mpr (fun r hr => by simpa using hclean r hr)
  simp only [find_documents, scanRoots_eq, h1 roots hclean, h2]

/-- C5 witness: on the clean root `/docs`, the non-glob pattern `invoice`
returns exactly the two supported documents whose names contain it
(case-sensitively), tagged with extension, size and root; the unsupported
`.txt` match and the non-matching `.png` are excluded. -/
theorem claim_C5_witness :
    find_documents fsFind [["docs"]] "invoice" none =
      Except.ok (spec_find fsFind [["docs"]] "invoice", []) ∧
    spec_find fsFind [["docs"]] "invoice" =
      [ { path := ["docs", "invoice_a.pdf"], name := "invoice_a.pdf",
          extension := "pdf", size := 10, root := ["docs"] },
        { path := ["docs", "sub", "invoice_b.PDF"], name := "invoice_b.PDF",
          extension := "pdf", size := 20, root := ["docs"] } ] :=
  ⟨claim_C5_amended fsFind [["docs"]] "invoice" (by decide) (by decide)
     (by decide) (by decide) (by decide), by decide⟩

/-! ## Claim C9: directory-listing order -/

/-- A character is determined by its code point. -/
theorem char_toNat_inj {a b : Char} (h : a.toNat = b.toNat) : a = b := by
  apply Char.ext
  unfold Char.toNat at h
  exact UInt32.toNat.inj h

/-- `lexLe` is total. -/
theorem lexLe_total : ∀ as bs : List Char, lexLe as bs = true ∨ lexLe bs as = true := by
  intro as
  induction as with
  | nil => intro bs; exact Or.inl rfl
  | cons a as ih =>
    intro bs
    cases bs with
    | nil => exact Or.inr rfl
    | cons b bs =>
      by_cases hab : a = b
      · subst hab
        simp only [lexLe, beq_self_eq_true, if_true]
        exact ih bs
      · have hne : a.toNat ≠ b.toNat := fun hcontra => hab (char_toNat_inj hcontra)
        have hba : b ≠ a := fun hcontra => hab hcontra.symm
        rcases Nat.lt_or_ge a.toNat b.toNat with hlt | hge
        · left
          simp [lexLe, hab, hlt]
        · right
          have : b.toNat < a.toNat := Nat.lt_of_le_of_ne hge (fun hcontra => hne hcontra.symm)
          simp [lexLe, hba, this]

/-- `lexLe` is transitive. -/
theorem lexLe_trans :
    ∀ as bs cs : List Char, lexLe as bs = true → lexLe bs cs = true →
      lexLe as cs = true := by
  intro as
  induction as with
  | nil => intro bs cs _ _; rfl
  | cons a as ih =>
    intro bs cs h1 h2
    cases bs with
    | nil => simp [lexLe] at h1
    | cons b bs =>
      cases cs with
      | nil => simp [lexLe] at h2
      | cons c cs =>
        by_cases hab : a = b <;> by_cases hbc : b = c
        · subst hab; subst hbc
          simp only [lexLe, beq_self_eq_true, if_true] at h1 h2 ⊢
          exact ih bs cs h1 h2
        · subst hab
          simp only [lexLe, beq_self_eq_true, if_true] at h1
          simpa [lexLe, hbc] using h2
        · subst hbc
          simpa [lexLe, hab] using h1
        · have h1' : a.toNat < b.toNat := by simpa [lexLe, hab] using h1
          have h2' : b.toNat < c.toNat := by simpa [lexLe, hbc] using h2
          have hac : a.toNat < c.toNat := Nat.lt_trans h1' h2'
          have hne : a ≠ c := by
            intro hcontra
            subst hcontra
            exact Nat.lt_irrefl _ hac
          simp [lexLe, hne, hac]

/-- The listing key order is total. -/
theorem entryLe_total : ∀ a b : EntryInfo, entryLe a b = true ∨ entryLe b a = true := by
  intro a b
  cases hfa : a.etype == "file" <;> cases hfb : b.etype == "file" <;>
    rcases lexLe_total (lowerList a.name) (lowerList b.name) with hl | hl <;>
    simp [entryLe, hfa, hfb, hl]

/-- The listing key order is transitive. -/
theorem entryLe_trans :
    ∀ a b c : EntryInfo, entryLe a b = true → entryLe b c = true →
      entryLe a c = true := by
  intro a b c h1 h2
  cases hfa : a.etype == "file" <;> cases hfb : b.etype == "file" <;>
    cases hfc : c.etype == "file" <;>
    simp only [entryLe, hfa, hfb, hfc, Bool.not_true, Bool.not_false,
      Bool.true_and, Bool.false_and, Bool.and_true, Bool.and_false,
      Bool.or_false, Bool.false_or, Bool.or_true, Bool.true_or, beq_self_eq_true,
      Bool.true_eq_false, Bool.false_eq_true, beq_iff_eq, if_true] at h1 h2 ⊢ <;>
    first
      | rfl
      | exact lexLe_trans _ _ _ h1 h2
      | simp at h1
      | simp at h2

/-- Every listed entry is a directory entry or a file entry. -/
theorem etype_childEntries {fs : FS} {d : PathC} {e : EntryInfo}
    (h : e ∈ childEntries fs d) : e.etype = "directory" ∨ e.etype = "file" := by
  rcases List.mem_append.mp h with hm | hm <;>
    rcases List.mem_map.mp hm with ⟨x, -, rfl⟩
  · exact Or.inl rfl
  · exact Or.inr rfl

/-- The Boolean key order implies the spec's listing order on genuine
entries. -/
theorem entryLe_listing {a b : EntryInfo}
    (ha : a.etype = "directory" ∨ a.etype = "file")
    (hb : b.etype = "directory" ∨ b.etype = "file")
    (h : entryLe a b = true) : listing_order a b := by
  rcases ha with ha | ha <;> rcases hb with hb | hb
  · exact Or.inr ⟨ha.trans hb.symm, by simpa [entryLe, ha, hb] using h⟩
  · exact Or.inl ⟨ha, hb⟩
  · simp [entryLe, ha, hb] at h
  · exact Or.inr ⟨ha.trans hb.symm, by simpa [entryLe, ha, hb] using h⟩

/-- C9.  For an authorized, readable directory, `read_directory` returns a
permutation of its immediate entries that is sorted with every directory
before every file and, within each group, by case-insensitive name order. -/
theorem claim_C9 (fs : FS) (roots : List PathC) (path : PathC)
    (h1 : is_path_allowed fs roots path = true)
    (h2 : fs.isDir (resolveComps path) = true)
    (h3 : fs.failingDirs.contains (resolveComps path) = false) :
    ∃ l, read_directory fs roots path = Except.ok l ∧
      l.Perm (childEntries fs (resolveComps path)) ∧
      List.Sorted listing_order l := by
  have h1' : is_path_allowed fs roots (resolveComps path) = true := by
    rw [is_path_allowed_resolve]; exact h1
  have h3' : resolveComps path ∉ fs.failingDirs := by simpa using h3
  refine ⟨List.insertionSort (fun a b => entryLe a b = true)
      (childEntries fs (resolveComps path)), ?_, ?_, ?_⟩
  · simp [read_directory, h1', h2, h3']
  · exact List.perm_insertionSort _ _
  · have hsorted :=
      @List.sorted_insertionSort EntryInfo (fun a b => entryLe a b = true) _
        ⟨fun a b => entryLe_total a b⟩
        ⟨fun a b c hab hbc => entryLe_trans a b c hab hbc⟩
        (childEntries fs (resolveComps path))
    refine List.Pairwise.imp_of_mem ?_ hsorted
    intro a b hma hmb hab
    have hperm := (List.perm_insertionSort
      (fun a b => entryLe a b = true) (childEntries fs (resolveComps path)))
    exact entryLe_listing (etype_childEntries (hperm.mem_iff.mp hma))
      (etype_childEntries (hperm.mem_iff.mp hmb)) hab

/-- C9 witness: the directory `/d` containing `b.txt`, `A_dir`, `a.txt`
lists `A_dir` first, then `a.txt`, then `b.txt`. -/
theorem claim_C9_witness :
    is_path_allowed fsListing [["d"]] ["d"] = true ∧
    (∃ l, read_directory fsListing [["d"]] ["d"] = Except.ok l ∧
      l.Perm (childEntries fsListing (resolveComps ["d"])) ∧
      List.Sorted listing_order l) ∧
    read_directory fsListing [["d"]] ["d"] =
      Except.ok
        [ { name := "A_dir", etype := "directory", path := ["d", "A_dir"],
            extension := none, size := none },
          { name := "a.txt", etype := "file", path := ["d", "a.txt"],
            extension := some ".txt", size := some 4 },
          { name := "b.txt", etype := "file", path := ["d", "b.txt"],
            extension := some ".txt", size := some 3 } ] :=
  ⟨by decide,
   claim_C9 fsListing [["d"]] ["d"] (by decide) (by decide) (by decide),
   rfl⟩

end NexSuites
